import Mathlib

/-
Verification of the Tree Concatenator (src/context_creator.py) against its
natural-language specification.

The whole program is the single function `concatenate_directory_tree`
(context_creator.py lines 16-107).  It walks a directory tree with
`os.walk`, prunes excluded directories, gates file processing per directory
on `included_directories`, filters files (extension exclusion, then pattern
exclusion, then inclusion), and streams each surviving file's content into
one output file between separator blocks, counting processed and skipped
files.

Shallow embedding used here:
  - the filesystem is an inductive tree `FSTree` of directories; each file
    carries the outcome of reading it (`Except`: either its decoded text or
    the error description Python's `except Exception as error` would bind);
  - the output stream is the list of `output.write` calls, in order;
  - the reporting channel (stdout `print` calls inside the loop) is a list
    of lines;
  - `os.walk(root)` with top-down in-place pruning becomes the mutual
    recursion `walkTree` / `walkForest`;
  - the only fatal failure point, `open(output_path, "w")` (line 58), is
    modelled by the boolean `outputOpenOk`.
-/

/-- Configuration: the five optional filter lists of
`concatenate_directory_tree` (lines 19-23).  Python's
`excluded_extensions or []` defaulting (lines 49-53) is the identity on an
actual list argument, so plain lists model it. -/
structure Config where
  excluded_extensions : List String
  excluded_directories : List String
  included_directories : List String
  included_files : List String
  excluded_file_patterns : List String
deriving Repr, DecidableEq

/-- A file as the traversal sees it: its name, and what reading it yields —
`Except.ok text` for a successful read (line 97-98, with undecodable bytes
already dropped by `errors="ignore"`), `Except.error e` when `open`/`read`
raises and line 100 binds the error description `e`. -/
structure FSFile where
  name : String
  readResult : Except String String
deriving Repr

/-- A directory tree: directory base name, immediate subdirectories,
immediate files — the `(current_dir, subdirs, files)` view `os.walk`
reports, in filesystem-reported order. -/
inductive FSTree : Type where
  | dir : String → List FSTree → List FSFile → FSTree
deriving Repr

/-- Base name of a directory node. -/
def FSTree.dirname : FSTree → String
  | .dir n _ _ => n

/-- Run state: the `output.write` calls so far (line 92-104), the progress
lines printed so far (line 89), and the two counters (lines 55-56). -/
structure St where
  writes : List String
  report : List String
  files_processed : Nat
  files_skipped : Nat
deriving Repr, DecidableEq

/-- Python's substring test `pat in s` (used at lines 66, 76, 82). -/
def pyIn (pat s : String) : Bool := decide (pat.toList <:+: s.toList)

/-- Python's `s.endswith(suffix)` (used at line 71). -/
def pyEndsWith (s suffix : String) : Bool := decide (suffix.toList <:+ s.toList)

/-- Python's `os.path.basename` (line 65) on a POSIX path: the characters
after the last slash; `pyBasename "." = "."`. -/
def pyBasename (p : String) : String :=
  String.mk ((p.toList.reverse.takeWhile (fun c => c != '/')).reverse)

/-- The separator `'=' * 60` written at lines 92 and 94. -/
def sep60 : String := String.mk (List.replicate 60 '=')

/-- The path of a file relative to the root (line 87,
`os.path.relpath(os.path.join(current_dir, filename), root_directory)`):
the directory components under the root, joined with the file name. -/
def relPath (comps : List String) (filename : String) : String :=
  String.intercalate "/" (comps ++ [filename])

/-- The body of the per-file loop, lines 69-104: the three filters in order
(extension exclusion line 71, pattern exclusion line 76, inclusion gate
lines 81-82), each skip incrementing `files_skipped` and moving on
(`continue`); then the progress line (line 89), the separator block (lines
92-94), the content or the inline error marker (lines 96-102), and the two
trailing newlines (line 104). -/
def processFile (cfg : Config) (comps : List String) (st : St) (filename : String)
    (readResult : Except String String) : St :=
  if cfg.excluded_extensions.any (fun ext => pyEndsWith filename ("." ++ ext)) then
    { st with files_skipped := st.files_skipped + 1 }
  else if cfg.excluded_file_patterns.any (fun pat => pyIn pat filename) then
    { st with files_skipped := st.files_skipped + 1 }
  else if !cfg.included_files.isEmpty && !cfg.included_files.any (fun pat => pyIn pat filename) then
    { st with files_skipped := st.files_skipped + 1 }
  else
    let relative_path := relPath comps filename
    let st1 := { st with report := st.report ++ ["Processing: " ++ relative_path] }
    let st2 := { st1 with writes := st1.writes ++
        [sep60 ++ "\n", "File: " ++ relative_path ++ "\n", sep60 ++ "\n"] }
    let st3 :=
      match readResult with
      | .ok text =>
          { st2 with writes := st2.writes ++ [text],
                     files_processed := st2.files_processed + 1 }
      | .error e =>
          { st2 with writes := st2.writes ++ ["[ERROR: Could not read file - " ++ e ++ "]\n"],
                     files_skipped := st2.files_skipped + 1 }
    { st3 with writes := st3.writes ++ ["\n\n"] }

/-- The directory inclusion gate, lines 64-67: with a non-empty
`included_directories`, a directory whose base name contains none of the
inclusion substrings has its files skipped (`continue`). -/
def dirGateFails (cfg : Config) (base : String) : Bool :=
  !cfg.included_directories.isEmpty &&
    !cfg.included_directories.any (fun pat => pyIn pat base)

mutual
/-- One `os.walk` visit (lines 59-104): prune excluded subdirectories
(line 61, modelled by the skip in `walkForest`), apply the inclusion gate
(lines 64-67) — on failure `continue` skips this directory's files but
`os.walk` still descends into the pruned subdirectory list — otherwise run
the per-file loop, then recurse into the surviving subdirectories in
order (top-down, depth-first). -/
def walkTree (cfg : Config) (base : String) (comps : List String) (st : St) : FSTree → St
  | .dir _ subdirs files =>
    let st1 :=
      if dirGateFails cfg base then st
      else files.foldl (fun s f => processFile cfg comps s f.name f.readResult) st
    walkForest cfg comps st1 subdirs
termination_by structural t => t

/-- Visit a list of sibling subdirectories in order, line 61's pruning
applied: a subdirectory whose name is in `excluded_directories` is removed
before descending, so its subtree is never visited. -/
def walkForest (cfg : Config) (comps : List String) (st : St) : List FSTree → St
  | [] => st
  | t :: ts =>
    let st1 :=
      if cfg.excluded_directories.contains t.dirname then st
      else walkTree cfg t.dirname (comps ++ [t.dirname]) st t
    walkForest cfg comps st1 ts
termination_by structural ts => ts
end

/-- The whole traversal of lines 55-104 from the root: counters start at
zero, and the first `os.walk` entry is the root directory itself, whose
base name is `os.path.basename(root_directory)` applied to the path as
given. -/
def runStats (cfg : Config) (root_directory : String) (tree : FSTree) : St :=
  walkTree cfg (pyBasename root_directory) [] ⟨[], [], 0, 0⟩ tree

/-- The whole function, lines 16-107: `open(output_path, "w")` (line 58) is
the only unguarded fallible operation — if it fails the exception
propagates to the caller and nothing runs; otherwise the traversal runs to
completion.  `outputOpenOk` models whether the output path can be opened
for writing. -/
def concatenate_directory_tree (cfg : Config) (root_directory output_path : String)
    (outputOpenOk : Bool) (tree : FSTree) : Except String St :=
  if outputOpenOk then
    Except.ok (runStats cfg root_directory tree)
  else
    Except.error ("could not open " ++ output_path ++ " for writing")

/-- The final console summary, lines 106-107. -/
def summaryLines (st : St) (output_path : String) : List String :=
  ["\nComplete! Processed " ++ toString st.files_processed ++ " files, skipped "
      ++ toString st.files_skipped,
   "Output saved to: " ++ output_path]

/-- The bytes of the output file: the concatenation of all `output.write`
calls in order. -/
def outputContent (st : St) : String := String.join st.writes

/-- A file name survives the three file filters of lines 69-84 (none of the
skip branches fires). -/
def survives (cfg : Config) (filename : String) : Bool :=
  !(cfg.excluded_extensions.any fun ext => pyEndsWith filename ("." ++ ext)) &&
  (!(cfg.excluded_file_patterns.any fun pat => pyIn pat filename) &&
   !(!cfg.included_files.isEmpty && !cfg.included_files.any fun pat => pyIn pat filename))

mutual
/-- Total number of file names listed by the traversal in all visited
directories after pruning — the count the spec's P5 is read as in claim
C2: gate-failing directories' file names included. -/
def listedFiles (cfg : Config) : FSTree → Nat
  | .dir _ subdirs files => files.length + listedFilesForest cfg subdirs
termination_by structural t => t

/-- List version of `listedFiles`, skipping pruned subdirectories. -/
def listedFilesForest (cfg : Config) : List FSTree → Nat
  | [] => 0
  | t :: ts =>
    (if cfg.excluded_directories.contains t.dirname then 0 else listedFiles cfg t)
      + listedFilesForest cfg ts
termination_by structural ts => ts
end

mutual
/-- Total number of file names in visited directories that also pass the
inclusion gate — exactly the files the per-file loop of lines 69-104
iterates over. -/
def gatedFiles (cfg : Config) (base : String) : FSTree → Nat
  | .dir _ subdirs files =>
    (if dirGateFails cfg base then 0 else files.length) + gatedFilesForest cfg subdirs
termination_by structural t => t

/-- List version of `gatedFiles`, skipping pruned subdirectories. -/
def gatedFilesForest (cfg : Config) : List FSTree → Nat
  | [] => 0
  | t :: ts =>
    (if cfg.excluded_directories.contains t.dirname then 0 else gatedFiles cfg t.dirname t)
      + gatedFilesForest cfg ts
termination_by structural ts => ts
end

mutual
/-- Relative paths of the files that reach line 86 (pass the directory
gate and all three file filters), in traversal order. -/
def survivorPaths (cfg : Config) (base : String) (comps : List String) : FSTree → List String
  | .dir _ subdirs files =>
    (if dirGateFails cfg base then []
     else (files.filter (fun f => survives cfg f.name)).map (fun f => relPath comps f.name))
      ++ survivorPathsForest cfg comps subdirs
termination_by structural t => t

/-- List version of `survivorPaths`, skipping pruned subdirectories. -/
def survivorPathsForest (cfg : Config) (comps : List String) : List FSTree → List String
  | [] => []
  | t :: ts =>
    (if cfg.excluded_directories.contains t.dirname then []
     else survivorPaths cfg t.dirname (comps ++ [t.dirname]) t)
      ++ survivorPathsForest cfg comps ts
termination_by structural ts => ts
end

/-! ## Basic facts about the string predicates and the filters -/

theorem pyIn_empty (s : String) : pyIn "" s = true :=
  decide_eq_true List.nil_infix

theorem dirGateFails_of (cfg : Config) (base : String)
    (h1 : cfg.included_directories ≠ [])
    (h2 : ∀ pat ∈ cfg.included_directories, pyIn pat base = false) :
    dirGateFails cfg base = true := by
  have he : cfg.included_directories.isEmpty = false := by
    simpa [List.isEmpty_iff] using h1
  have ha : (cfg.included_directories.any fun pat => pyIn pat base) = false := by
    rw [List.any_eq_false]
    intro pat hpat
    simp [h2 pat hpat]
  simp [dirGateFails, he, ha]

theorem survives_emptyPattern (cfg : Config) (n : String)
    (h : "" ∈ cfg.excluded_file_patterns) : survives cfg n = false := by
  have hp : (cfg.excluded_file_patterns.any fun pat => pyIn pat n) = true :=
    List.any_eq_true.mpr ⟨"", h, pyIn_empty n⟩
  simp [survives, hp]

/-! ## The per-file loop body -/

theorem processFile_skip (cfg : Config) (comps : List String) (st : St) (n : String)
    (c : Except String String) (h : survives cfg n = false) :
    processFile cfg comps st n c = { st with files_skipped := st.files_skipped + 1 } := by
  unfold processFile
  split
  · rfl
  · split
    · rfl
    · split
      · rfl
      · rename_i h1 h2 h3
        exfalso
        rw [Bool.not_eq_true] at h1 h2 h3
        simp [survives, h1, h2, h3] at h

theorem processFile_surv_ok (cfg : Config) (comps : List String) (st : St) (n text : String)
    (h : survives cfg n = true) :
    processFile cfg comps st n (.ok text) =
      { writes := st.writes ++
          [sep60 ++ "\n", "File: " ++ relPath comps n ++ "\n", sep60 ++ "\n", text, "\n\n"],
        report := st.report ++ ["Processing: " ++ relPath comps n],
        files_processed := st.files_processed + 1,
        files_skipped := st.files_skipped } := by
  simp only [survives, Bool.and_eq_true, Bool.not_eq_true'] at h
  obtain ⟨h1, h2, h3⟩ := h
  unfold processFile
  simp [h1, h2, h3]

theorem processFile_surv_error (cfg : Config) (comps : List String) (st : St) (n e : String)
    (h : survives cfg n = true) :
    processFile cfg comps st n (.error e) =
      { writes := st.writes ++
          [sep60 ++ "\n", "File: " ++ relPath comps n ++ "\n", sep60 ++ "\n",
           "[ERROR: Could not read file - " ++ e ++ "]\n", "\n\n"],
        report := st.report ++ ["Processing: " ++ relPath comps n],
        files_processed := st.files_processed,
        files_skipped := st.files_skipped + 1 } := by
  simp only [survives, Bool.and_eq_true, Bool.not_eq_true'] at h
  obtain ⟨h1, h2, h3⟩ := h
  unfold processFile
  simp [h1, h2, h3]

theorem processFile_counts (cfg : Config) (comps : List String) (st : St) (n : String)
    (c : Except String String) :
    (processFile cfg comps st n c).files_processed + (processFile cfg comps st n c).files_skipped
      = st.files_processed + st.files_skipped + 1 := by
  cases hs : survives cfg n with
  | false =>
    rw [processFile_skip cfg comps st n c hs]
    simp
    try omega
  | true =>
    cases c with
    | ok text =>
      rw [processFile_surv_ok cfg comps st n text hs]
      simp
      try omega
    | error e =>
      rw [processFile_surv_error cfg comps st n e hs]
      simp
      try omega

theorem processFile_report (cfg : Config) (comps : List String) (st : St) (n : String)
    (c : Except String String) :
    (processFile cfg comps st n c).report
      = st.report ++ (if survives cfg n then ["Processing: " ++ relPath comps n] else []) := by
  cases hs : survives cfg n with
  | false => rw [processFile_skip cfg comps st n c hs]; simp
  | true =>
    cases c with
    | ok text => rw [processFile_surv_ok cfg comps st n text hs]; simp
    | error e => rw [processFile_surv_error cfg comps st n e hs]; simp

/-! ## The per-directory file loop (lines 69-104 folded over `files`) -/

theorem foldl_processFile_counts (cfg : Config) (comps : List String) (files : List FSFile)
    (st : St) :
    (files.foldl (fun s f => processFile cfg comps s f.name f.readResult) st).files_processed
        + (files.foldl (fun s f => processFile cfg comps s f.name f.readResult) st).files_skipped
      = st.files_processed + st.files_skipped + files.length := by
  induction files generalizing st with
  | nil => simp
  | cons f fs ih =>
    simp only [List.foldl_cons, List.length_cons]
    rw [ih]
    have h := processFile_counts cfg comps st f.name f.readResult
    omega

theorem foldl_processFile_report (cfg : Config) (comps : List String) (files : List FSFile)
    (st : St) :
    (files.foldl (fun s f => processFile cfg comps s f.name f.readResult) st).report
      = st.report ++ (files.filter (fun f => survives cfg f.name)).map
          (fun f => "Processing: " ++ relPath comps f.name) := by
  induction files generalizing st with
  | nil => simp
  | cons f fs ih =>
    simp only [List.foldl_cons, List.filter_cons]
    rw [ih, processFile_report]
    cases hs : survives cfg f.name <;> simp [hs]

theorem foldl_processFile_allSkip (cfg : Config) (comps : List String) (files : List FSFile)
    (st : St) (h : ∀ f ∈ files, survives cfg f.name = false) :
    files.foldl (fun s f => processFile cfg comps s f.name f.readResult) st
      = { st with files_skipped := st.files_skipped + files.length } := by
  induction files generalizing st with
  | nil => simp
  | cons f fs ih =>
    simp only [List.foldl_cons, List.length_cons]
    rw [processFile_skip cfg comps st f.name f.readResult (h f (by simp))]
    rw [ih _ (fun g hg => h g (by simp [hg]))]
    cases st
    simp
    omega

/-! ## Unfolding facts for single traversal steps -/

theorem walkTree_gateFail (cfg : Config) (base : String) (comps : List String) (st : St)
    (n : String) (subdirs : List FSTree) (files : List FSFile)
    (h : dirGateFails cfg base = true) :
    walkTree cfg base comps st (.dir n subdirs files) = walkForest cfg comps st subdirs := by
  rw [walkTree]
  simp [h]

theorem walkForest_excludedSkip (cfg : Config) (comps : List String) (st : St)
    (t : FSTree) (ts : List FSTree)
    (h : cfg.excluded_directories.contains t.dirname = true) :
    walkForest cfg comps st (t :: ts) = walkForest cfg comps st ts := by
  rw [walkForest, if_pos h]

/-! ## Run-level invariants, by mutual induction over the tree -/

mutual
theorem walkTree_counts (cfg : Config) (base : String) (comps : List String) (st : St)
    (t : FSTree) :
    (walkTree cfg base comps st t).files_processed + (walkTree cfg base comps st t).files_skipped
      = st.files_processed + st.files_skipped + gatedFiles cfg base t := by
  match t with
  | .dir n subdirs files =>
    rw [walkTree, gatedFiles]
    cases hg : dirGateFails cfg base with
    | true =>
      simp only [hg, if_pos]
      have h := walkForest_counts cfg comps st subdirs
      omega
    | false =>
      simp only [hg, Bool.false_eq_true, if_false]
      have h := walkForest_counts cfg comps
        (files.foldl (fun s f => processFile cfg comps s f.name f.readResult) st) subdirs
      have h2 := foldl_processFile_counts cfg comps files st
      omega

theorem walkForest_counts (cfg : Config) (comps : List String) (st : St) (ts : List FSTree) :
    (walkForest cfg comps st ts).files_processed + (walkForest cfg comps st ts).files_skipped
      = st.files_processed + st.files_skipped + gatedFilesForest cfg ts := by
  match ts with
  | [] =>
    rw [walkForest, gatedFilesForest]
    omega
  | t :: ts2 =>
    rw [walkForest, gatedFilesForest]
    cases hx : cfg.excluded_directories.contains t.dirname with
    | true =>
      simp only [hx, if_pos]
      have h := walkForest_counts cfg comps st ts2
      omega
    | false =>
      simp only [hx, Bool.false_eq_true, if_false]
      have h1 := walkTree_counts cfg t.dirname (comps ++ [t.dirname]) st t
      have h2 := walkForest_counts cfg comps
        (walkTree cfg t.dirname (comps ++ [t.dirname]) st t) ts2
      omega
end

mutual
theorem walkTree_report (cfg : Config) (base : String) (comps : List String) (st : St)
    (t : FSTree) :
    (walkTree cfg base comps st t).report
      = st.report ++ (survivorPaths cfg base comps t).map (fun p => "Processing: " ++ p) := by
  match t with
  | .dir n subdirs files =>
    rw [walkTree, survivorPaths]
    cases hg : dirGateFails cfg base with
    | true =>
      simp only [hg, if_pos]
      rw [walkForest_report cfg comps st subdirs]
      simp
    | false =>
      simp only [hg, Bool.false_eq_true, if_false]
      rw [walkForest_report cfg comps
        (files.foldl (fun s f => processFile cfg comps s f.name f.readResult) st) subdirs]
      rw [foldl_processFile_report cfg comps files st]
      simp [List.map_map, Function.comp]

theorem walkForest_report (cfg : Config) (comps : List String) (st : St) (ts : List FSTree) :
    (walkForest cfg comps st ts).report
      = st.report ++ (survivorPathsForest cfg comps ts).map (fun p => "Processing: " ++ p) := by
  match ts with
  | [] =>
    rw [walkForest, survivorPathsForest]
    simp
  | t :: ts2 =>
    rw [walkForest, survivorPathsForest]
    cases hx : cfg.excluded_directories.contains t.dirname with
    | true =>
      simp only [hx, if_pos]
      rw [walkForest_report cfg comps st ts2]
      simp
    | false =>
      simp only [hx, Bool.false_eq_true, if_false]
      rw [walkForest_report cfg comps
        (walkTree cfg t.dirname (comps ++ [t.dirname]) st t) ts2]
      rw [walkTree_report cfg t.dirname (comps ++ [t.dirname]) st t]
      simp
end

mutual
theorem walkTree_emptyPattern (cfg : Config) (base : String) (comps : List String) (st : St)
    (t : FSTree) (h : "" ∈ cfg.excluded_file_patterns) :
    walkTree cfg base comps st t
      = { st with files_skipped := st.files_skipped + gatedFiles cfg base t } := by
  match t with
  | .dir n subdirs files =>
    rw [walkTree, gatedFiles]
    cases hg : dirGateFails cfg base with
    | true =>
      simp only [hg, if_pos]
      rw [walkForest_emptyPattern cfg comps st subdirs h]
      simp
    | false =>
      simp only [hg, Bool.false_eq_true, if_false]
      rw [foldl_processFile_allSkip cfg comps files st
        (fun f _ => survives_emptyPattern cfg f.name h)]
      rw [walkForest_emptyPattern cfg comps _ subdirs h]
      cases st
      simp
      omega

theorem walkForest_emptyPattern (cfg : Config) (comps : List String) (st : St)
    (ts : List FSTree) (h : "" ∈ cfg.excluded_file_patterns) :
    walkForest cfg comps st ts
      = { st with files_skipped := st.files_skipped + gatedFilesForest cfg ts } := by
  match ts with
  | [] =>
    rw [walkForest, gatedFilesForest]
    simp
  | t :: ts2 =>
    rw [walkForest, gatedFilesForest]
    cases hx : cfg.excluded_directories.contains t.dirname with
    | true =>
      simp only [hx, if_pos]
      rw [walkForest_emptyPattern cfg comps st ts2 h]
      simp
    | false =>
      simp only [hx, Bool.false_eq_true, if_false]
      rw [walkTree_emptyPattern cfg t.dirname (comps ++ [t.dirname]) st t h]
      rw [walkForest_emptyPattern cfg comps _ ts2 h]
      cases st
      simp
      omega
end

/-! ## The claims -/

/-- C1: with a non-empty `included_directories`, a visited directory whose
base name contains none of the inclusion substrings contributes none of its
files to the output, the report, or the counters — the visit equals the
plain traversal of its subdirectory list (pruning still applied there), so
deeper matching directories still have their files emitted. -/
theorem spec_C1 (cfg : Config) (base : String) (comps : List String) (st : St)
    (n : String) (subdirs : List FSTree) (files : List FSFile)
    (h1 : cfg.included_directories ≠ [])
    (h2 : ∀ pat ∈ cfg.included_directories, pyIn pat base = false) :
    walkTree cfg base comps st (.dir n subdirs files) = walkForest cfg comps st subdirs :=
  walkTree_gateFail cfg base comps st n subdirs files (dirGateFails_of cfg base h1 h2)

/-- Witness for C1: directory `docs` fails the gate for inclusion list
`["src"]`; its file `README.md` is dropped, while the subdirectory `src`
is still traversed. -/
theorem spec_C1_witness :
    ((["src"] : List String) ≠ [] ∧ ∀ pat ∈ (["src"] : List String), pyIn pat "docs" = false) ∧
    walkTree ⟨[], [], ["src"], [], []⟩ "docs" [] ⟨[], [], 0, 0⟩
        (.dir "docs" [.dir "src" [] [⟨"main.py", .ok "x=1"⟩]] [⟨"README.md", .ok "hi"⟩])
      = walkForest ⟨[], [], ["src"], [], []⟩ [] ⟨[], [], 0, 0⟩
          [.dir "src" [] [⟨"main.py", .ok "x=1"⟩]] :=
  ⟨⟨by decide, by decide⟩,
   spec_C1 ⟨[], [], ["src"], [], []⟩ "docs" [] ⟨[], [], 0, 0⟩ "docs"
     [.dir "src" [] [⟨"main.py", .ok "x=1"⟩]] [⟨"README.md", .ok "hi"⟩]
     (by decide) (by decide)⟩

/-- C2 as stated is false: a visited directory that fails the inclusion
gate has its files listed by the traversal but neither processed nor
skipped.  Root "." with `included_directories = ["src"]` and one top-level
file: the counters sum to 0, the traversal listed 1 file name. -/
theorem spec_C2_counterexample :
    (runStats ⟨[], [], ["src"], [], []⟩ "." (.dir "." [] [⟨"a.txt", .ok "x"⟩])).files_processed
        + (runStats ⟨[], [], ["src"], [], []⟩ "." (.dir "." [] [⟨"a.txt", .ok "x"⟩])).files_skipped
      ≠ listedFiles ⟨[], [], ["src"], [], []⟩ (.dir "." [] [⟨"a.txt", .ok "x"⟩]) := by
  have h : runStats ⟨[], [], ["src"], [], []⟩ "." (.dir "." [] [⟨"a.txt", .ok "x"⟩])
      = ⟨[], [], 0, 0⟩ := by rfl
  have h2 : listedFiles ⟨[], [], ["src"], [], []⟩ (.dir "." [] [⟨"a.txt", .ok "x"⟩]) = 1 := by
    rfl
  rw [h, h2]
  decide

/-- C2 amended: at the end of a run, `files_processed + files_skipped`
equals the number of file names listed by the traversal in the visited
directories that also pass the `included_directories` gate (after
directory pruning); file names in gate-failing directories are not
counted. -/
theorem spec_C2_amended (cfg : Config) (root_directory : String) (tree : FSTree) :
    (runStats cfg root_directory tree).files_processed
        + (runStats cfg root_directory tree).files_skipped
      = gatedFiles cfg (pyBasename root_directory) tree := by
  have h := walkTree_counts cfg (pyBasename root_directory) [] ⟨[], [], 0, 0⟩ tree
  simpa [runStats] using h

/-- C3: the exclusion filters run before the inclusion gate and decide the
file on first match: a file whose name matches an excluded extension or an
excluded pattern is skipped (`files_skipped` incremented, nothing written,
nothing reported) whatever `included_files` contains — in particular even
when an inclusion substring also matches the name. -/
theorem spec_C3 (cfg : Config) (comps : List String) (st : St) (n : String)
    (c : Except String String)
    (h : (cfg.excluded_extensions.any fun ext => pyEndsWith n ("." ++ ext)) = true ∨
         (cfg.excluded_file_patterns.any fun pat => pyIn pat n) = true) :
    processFile cfg comps st n c = { st with files_skipped := st.files_skipped + 1 } := by
  have hs : survives cfg n = false := by
    rcases h with h | h <;> simp [survives, h]
  exact processFile_skip cfg comps st n c hs

/-- Witness for C3: `test_backup.py` matches the excluded extension `py`,
the excluded pattern `backup`, and the inclusion substring `test_`;
exclusion wins and the file is skipped with no output. -/
theorem spec_C3_witness :
    (pyIn "test_" "test_backup.py" = true ∧ pyEndsWith "test_backup.py" ".py" = true) ∧
    processFile ⟨["py"], [], [], ["test_"], ["backup"]⟩ [] ⟨[], [], 0, 0⟩ "test_backup.py"
        (.ok "z") = ⟨[], [], 0, 1⟩ :=
  ⟨⟨by decide, by decide⟩,
   spec_C3 ⟨["py"], [], [], ["test_"], ["backup"]⟩ [] ⟨[], [], 0, 0⟩ "test_backup.py"
     (.ok "z") (Or.inl (by decide))⟩

/-- C4: a file that passes every filter but whose read raises `e` gets its
header block followed by the line `[ERROR: Could not read file - e]` and a
newline in place of content (then the block's two trailing newlines), is
counted in `files_skipped` with `files_processed` untouched, and the
resulting state is exactly the input state plus this one block — the fold
over the remaining files proceeds from it, so no other file's contents or
counts are affected. -/
theorem spec_C4 (cfg : Config) (comps : List String) (st : St) (n e : String)
    (h : survives cfg n = true) :
    processFile cfg comps st n (.error e) =
      { writes := st.writes ++
          [sep60 ++ "\n", "File: " ++ relPath comps n ++ "\n", sep60 ++ "\n",
           "[ERROR: Could not read file - " ++ e ++ "]\n", "\n\n"],
        report := st.report ++ ["Processing: " ++ relPath comps n],
        files_processed := st.files_processed,
        files_skipped := st.files_skipped + 1 } :=
  processFile_surv_error cfg comps st n e h

/-- Witness for C4: an unreadable `data.txt` under an empty configuration
produces the inline error block and one skip. -/
theorem spec_C4_witness :
    survives ⟨[], [], [], [], []⟩ "data.txt" = true ∧
    processFile ⟨[], [], [], [], []⟩ [] ⟨[], [], 0, 0⟩ "data.txt" (.error "Permission denied")
      = ⟨[sep60 ++ "\n", "File: data.txt\n", sep60 ++ "\n",
          "[ERROR: Could not read file - Permission denied]\n", "\n\n"],
         ["Processing: data.txt"], 0, 1⟩ :=
  ⟨by decide,
   spec_C4 ⟨[], [], [], [], []⟩ [] ⟨[], [], 0, 0⟩ "data.txt" "Permission denied" (by decide)⟩

/-- C5: the run surfaces an error to its caller exactly when the output
path cannot be opened for writing; per-file read failures live inside each
file's `readResult` and the traversal is a total function, so they can
never abort the run. -/
theorem spec_C5 (cfg : Config) (root_directory output_path : String) (outputOpenOk : Bool)
    (tree : FSTree) :
    (∃ e, concatenate_directory_tree cfg root_directory output_path outputOpenOk tree
        = Except.error e) ↔ outputOpenOk = false := by
  unfold concatenate_directory_tree
  cases outputOpenOk <;> simp

/-- C6: a surviving file read successfully appends to the output stream
exactly, in order: a line of 60 `=` characters and a newline, the line
`File: <relative path>` and a newline, another 60-`=` line and a newline,
the file's full decoded text, and two trailing newlines — appended at the
end of the stream written so far, so blocks occur in traversal order; and
the separator really has 60 characters, all `=`. -/
theorem spec_C6 (cfg : Config) (comps : List String) (st : St) (n text : String)
    (h : survives cfg n = true) :
    processFile cfg comps st n (.ok text) =
      { writes := st.writes ++
          [sep60 ++ "\n", "File: " ++ relPath comps n ++ "\n", sep60 ++ "\n", text, "\n\n"],
        report := st.report ++ ["Processing: " ++ relPath comps n],
        files_processed := st.files_processed + 1,
        files_skipped := st.files_skipped } ∧
    sep60.length = 60 ∧ sep60.toList = List.replicate 60 '=' :=
  ⟨processFile_surv_ok cfg comps st n text h, by decide, rfl⟩

/-- Witness for C6: `sub/a.py` with content `x=1` produces its labelled
block followed by two newlines, and one processed file. -/
theorem spec_C6_witness :
    survives ⟨[], [], [], [], []⟩ "a.py" = true ∧
    (processFile ⟨[], [], [], [], []⟩ ["sub"] ⟨[], [], 0, 0⟩ "a.py" (.ok "x=1")
      = ⟨[sep60 ++ "\n", "File: sub/a.py\n", sep60 ++ "\n", "x=1", "\n\n"],
         ["Processing: sub/a.py"], 1, 0⟩ ∧
     sep60.length = 60 ∧ sep60.toList = List.replicate 60 '=') :=
  ⟨by decide, spec_C6 ⟨[], [], [], [], []⟩ ["sub"] ⟨[], [], 0, 0⟩ "a.py" "x=1" (by decide)⟩

/-- C7: a sibling directory whose name is in `excluded_directories` is
pruned before descending: traversing the sibling list with it present
equals traversing without it, whatever its entire subtree holds and
whatever the other filters are — so nothing under it is visited, emitted,
or counted. -/
theorem spec_C7 (cfg : Config) (comps : List String) (st : St) (t : FSTree)
    (ts : List FSTree) (h : cfg.excluded_directories.contains t.dirname = true) :
    walkForest cfg comps st (t :: ts) = walkForest cfg comps st ts :=
  walkForest_excludedSkip cfg comps st t ts h

/-- Witness for C7: a `node_modules` subtree with a nested directory and
files disappears from the traversal entirely. -/
theorem spec_C7_witness :
    (["node_modules"] : List String).contains "node_modules" = true ∧
    walkForest ⟨[], ["node_modules"], [], [], []⟩ [] ⟨[], [], 0, 0⟩
        [.dir "node_modules" [.dir "sub" [] [⟨"d.js", .ok "d"⟩]] [⟨"c.js", .ok "c"⟩]]
      = walkForest ⟨[], ["node_modules"], [], [], []⟩ [] ⟨[], [], 0, 0⟩ [] :=
  ⟨by decide,
   spec_C7 ⟨[], ["node_modules"], [], [], []⟩ [] ⟨[], [], 0, 0⟩
     (.dir "node_modules" [.dir "sub" [] [⟨"d.js", .ok "d"⟩]] [⟨"c.js", .ok "c"⟩]) []
     (by decide)⟩

/-- C8 as stated is false: the `Processing:` line is printed before the
read is attempted, so a file that passes the filters but fails to read
gets a progress line while being counted in `files_skipped`.  With a
single unreadable file the report has one line but zero files were
processed. -/
theorem spec_C8_counterexample :
    ((runStats ⟨[], [], [], [], []⟩ "." (.dir "." [] [⟨"a.txt", .error "boom"⟩])).report).length
      ≠ (runStats ⟨[], [], [], [], []⟩ "."
          (.dir "." [] [⟨"a.txt", .error "boom"⟩])).files_processed := by
  have h : runStats ⟨[], [], [], [], []⟩ "." (.dir "." [] [⟨"a.txt", .error "boom"⟩])
      = ⟨[sep60 ++ "\n", "File: a.txt\n", sep60 ++ "\n",
          "[ERROR: Could not read file - boom]\n", "\n\n"],
         ["Processing: a.txt"], 0, 1⟩ := by rfl
  rw [h]
  decide

/-- C8 amended: the reporting channel receives exactly one
`Processing: <relative path>` line per file that survives the three file
filters in a gate-passing directory — whether its read then succeeds or
fails — in traversal order, and no line for any filter-skipped file. -/
theorem spec_C8_amended (cfg : Config) (root_directory : String) (tree : FSTree) :
    (runStats cfg root_directory tree).report
      = (survivorPaths cfg (pyBasename root_directory) [] tree).map
          (fun p => "Processing: " ++ p) := by
  have h := walkTree_report cfg (pyBasename root_directory) [] ⟨[], [], 0, 0⟩ tree
  simpa [runStats] using h

/-- C9: the inclusion gate also applies to the root directory itself, its
base name computed from the root path as given; when no inclusion
substring occurs in that base name, the run is unchanged by deleting every
top-level file — they are silently dropped without being emitted or
counted. -/
theorem spec_C9 (cfg : Config) (root_directory output_path : String) (n : String)
    (subdirs : List FSTree) (files : List FSFile)
    (h1 : cfg.included_directories ≠ [])
    (h2 : ∀ pat ∈ cfg.included_directories, pyIn pat (pyBasename root_directory) = false) :
    concatenate_directory_tree cfg root_directory output_path true (.dir n subdirs files)
      = concatenate_directory_tree cfg root_directory output_path true (.dir n subdirs []) := by
  have hg := dirGateFails_of cfg (pyBasename root_directory) h1 h2
  unfold concatenate_directory_tree runStats
  rw [walkTree_gateFail cfg (pyBasename root_directory) [] ⟨[], [], 0, 0⟩ n subdirs files hg,
      walkTree_gateFail cfg (pyBasename root_directory) [] ⟨[], [], 0, 0⟩ n subdirs [] hg]

/-- Witness for C9: for the default root "." the base name is "." and
`"src"` does not occur in it, so the top-level file `top.txt` is silently
dropped while `src/m.py` deeper down is still reachable. -/
theorem spec_C9_witness :
    (pyBasename "." = "." ∧ pyIn "src" (pyBasename ".") = false) ∧
    concatenate_directory_tree ⟨[], [], ["src"], [], []⟩ "." "out.txt" true
        (.dir "." [.dir "src" [] [⟨"m.py", .ok "1"⟩]] [⟨"top.txt", .ok "t"⟩])
      = concatenate_directory_tree ⟨[], [], ["src"], [], []⟩ "." "out.txt" true
          (.dir "." [.dir "src" [] [⟨"m.py", .ok "1"⟩]] []) :=
  ⟨⟨by decide, by decide⟩,
   spec_C9 ⟨[], [], ["src"], [], []⟩ "." "out.txt" "."
     [.dir "src" [] [⟨"m.py", .ok "1"⟩]] [⟨"top.txt", .ok "t"⟩]
     (by decide) (by decide)⟩

/-- C10: when `excluded_file_patterns` contains the empty string, every
file name matches the pattern filter (`pyIn "" s = true` for all `s`, see
`pyIn_empty`), so every file reaching the per-file loop is skipped: the
run succeeds with no output writes at all (no file blocks), no progress
lines, zero processed files, and every gate-reachable file counted as
skipped. -/
theorem spec_C10 (cfg : Config) (root_directory output_path : String) (tree : FSTree)
    (h : "" ∈ cfg.excluded_file_patterns) :
    concatenate_directory_tree cfg root_directory output_path true tree
      = Except.ok ⟨[], [], 0, gatedFiles cfg (pyBasename root_directory) tree⟩ := by
  unfold concatenate_directory_tree runStats
  rw [walkTree_emptyPattern cfg (pyBasename root_directory) [] ⟨[], [], 0, 0⟩ tree h]
  simp

/-- Witness for C10: the pattern list `[""]` empties a run over a root
with one top-level file and one file in a subdirectory: both are counted
skipped, nothing is written. -/
theorem spec_C10_witness :
    ("" ∈ ([""] : List String)) ∧
    concatenate_directory_tree ⟨[], [], [], [], [""]⟩ "." "out.txt" true
        (.dir "." [.dir "sub" [] [⟨"b.py", .ok "y"⟩]] [⟨"a.py", .ok "x"⟩])
      = Except.ok ⟨[], [], 0, 2⟩ :=
  ⟨by decide,
   (spec_C10 ⟨[], [], [], [], [""]⟩ "." "out.txt"
     (.dir "." [.dir "sub" [] [⟨"b.py", .ok "y"⟩]] [⟨"a.py", .ok "x"⟩]) (by decide)).trans
    (by rfl)⟩
